import Mathlib

/-!
Verification of the HandBrake log-reader status tracker
(src/routes/util/LogReader.js) against its design specification.

The core of the repository is the class `LogReader`: a fold over the lines
of the HandBrake activity log that maintains a status record, plus an ETA
estimator (`calcEta`) run once on the final record.  We embed the record,
the per-line fold (`addLineIfIsIndicator` and `resolveStatus`), the reset
helper (`clearStats`) and the ETA computation (`calcEta`) directly from the
source.  The external collaborators that live in files absent from the
source tree (`ReaderUtil.js`, `HBStatus.js`) are kept abstract where the
properties quantify over classifier verdicts, and are otherwise modelled
from the specification, as marked in the individual doc comments.
-/

namespace HandbreakMonitor

/-- Modelled from the spec: the enumeration of status symbols `STATUS`
defined in `HBStatus.js` (absent from the source tree).  The spec lists the
states `SCANNING`, `SCAN_COMPLETE`, `RIPPING`, `RIPPING_SUB_SCAN`,
`RIPPING_ENCODING`, `QUEUE_COMPLETE`. -/
inductive STATUS where
  | SCANNING
  | SCAN_COMPLETE
  | RIPPING
  | RIPPING_SUB_SCAN
  | RIPPING_ENCODING
  | QUEUE_COMPLETE
deriving DecidableEq, Repr

/-- Modelled from the spec: `REVERSE_STATUS_LOOKUP` in `HBStatus.js`
(absent from the source tree) maps each status symbol to a human-readable
label; the concrete label strings are not design-bearing, so we use the
symbol names. -/
def REVERSE_STATUS_LOOKUP : STATUS → String
  | STATUS.SCANNING => "SCANNING"
  | STATUS.SCAN_COMPLETE => "SCAN_COMPLETE"
  | STATUS.RIPPING => "RIPPING"
  | STATUS.RIPPING_SUB_SCAN => "RIPPING_SUB_SCAN"
  | STATUS.RIPPING_ENCODING => "RIPPING_ENCODING"
  | STATUS.QUEUE_COMPLETE => "QUEUE_COMPLETE"

/-- JavaScript `s.slice(a, b)` for `0 ≤ a ≤ b`: the substring from
character index `a` (inclusive) to `b` (exclusive), clamped to the string
length.  Used by the source as `line.slice(1, 9)`. -/
def jsSlice (s : String) (a b : Nat) : String :=
  String.mk ((s.toList.drop a).take (b - a))

/-- JavaScript `s.slice(-2)`: the last two characters (the whole string if
it is shorter).  Used by `addLineIfIsIndicator`. -/
def jsSliceLast2 (s : String) : String :=
  String.mk (s.toList.drop (s.toList.length - 2))

/-- JavaScript `Number(s)` restricted to the decimal strings produced by
the chapter-count indicator (`line.slice(-2).trim()`); the regular
expression guarding the call guarantees a numeric suffix, so the `NaN`
cases of `Number` are outside the exercised domain and collapse to `0`
here. -/
def jsNumber (s : String) : Int :=
  (s.toNat?.map Int.ofNat).getD 0

/-- Decimal value of a digit character. -/
def digitVal (c : Char) : Nat := c.toNat - '0'.toNat

/-- Modelled from the spec: `ReaderUtil.getDateFromTime` (in
`ReaderUtil.js`, absent from the source tree) converts an `HH:MM:SS`
timestamp substring into a point in time resolved against the reference
calendar date.  We model the resulting `Date` as an integer count of
milliseconds since the midnight of the reference date; a string not of the
`HH:MM:SS` shape resolves to `0`. -/
def getDateFromTime (s : String) : Int :=
  match s.toList with
  | [h1, h2, ':', m1, m2, ':', s1, s2] =>
      (((digitVal h1 * 10 + digitVal h2) * 3600 +
        (digitVal m1 * 10 + digitVal m2) * 60 +
        (digitVal s1 * 10 + digitVal s2)) * 1000 : Int)
  | _ => 0

/-- Two-digit zero-padded decimal rendering of a natural number. -/
def pad2 (n : Nat) : String :=
  if n < 10 then "0" ++ toString n else toString n

/-- Modelled from the spec: `ReaderUtil.secondsToFormattedTime` (in
`ReaderUtil.js`, absent from the source tree) formats a duration given in
seconds as `HH:MM:SS`; per the spec it must handle zero and negative
durations without failure, so a negative duration is rendered as a minus
sign followed by the magnitude of its floor. -/
def secondsToFormattedTime (s : Rat) : String :=
  let t : Int := Rat.floor s
  let a : Nat := t.natAbs
  let sign : String := if t < 0 then "-" else ""
  sign ++ pad2 (a / 3600) ++ ":" ++ pad2 (a % 3600 / 60) ++ ":" ++ pad2 (a % 60)

/-- The capabilities of the external line classifier: the verdict function
`ReaderUtil.lineToStatus`, the encode-started marker test
(`ReaderUtil.lineContains(line, RIP_PROGRESS_CONSTANTS.ENCODE_STARTED)`),
the title extraction `ReaderUtil.getEncodeName`, and the two indicator
pattern tests (`RIP_REGEXPS.TITLE_NUMBER`, `RIP_REGEXPS.CHAPTER_PROGRESS`).
All of these live in `ReaderUtil.js` and `HBStatus.js`, which are absent
from the source tree; the spec designates them an external, pure,
stateless collaborator, so we keep them abstract as a capability record
and quantify over them. -/
structure Classifier where
  lineToStatus : String → STATUS → STATUS
  isEncodeStarted : String → Bool
  getEncodeName : String → String
  matchesTitleNumber : String → Bool
  matchesChapterProgress : String → Bool

/-- The status record owned by the tracker during a replay: the fields of
`this.status` that the per-line fold reads and writes.  The derived
human-readable `status` label is attached only at stream close (see
`FinalStatus`). -/
structure HBRecord where
  currentEncode : String
  startTime : String
  endTime : String
  statusText : STATUS
  numChapters : Int
  etaEstimators : List String
  eta : String
deriving DecidableEq, Repr

/-- The record with every field at its default, as produced by
`clearStats`. -/
def defaultStatus : HBRecord :=
  { currentEncode := ""
    startTime := ""
    endTime := ""
    statusText := STATUS.QUEUE_COMPLETE
    numChapters := -1
    etaEstimators := []
    eta := "" }

/-- LogReader.clearStats: resets every tracked field of the status record
to its default.  All seven fields are overwritten, so the result does not
depend on the previous record. -/
def clearStats (_r : HBRecord) : HBRecord := defaultStatus

/-- LogReader.addLineIfIsIndicator: if the line matches the chapter-count
indicator, store `Number(line.slice(-2).trim())` into `numChapters`; else
if it matches the chapter-progress indicator, append the raw line to
`etaEstimators`; otherwise do nothing. -/
def addLineIfIsIndicator (C : Classifier) (r : HBRecord) (line : String) : HBRecord :=
  if C.matchesTitleNumber line then
    { r with numChapters := jsNumber (jsSliceLast2 line).trim }
  else if C.matchesChapterProgress line then
    { r with etaEstimators := r.etaEstimators ++ [line] }
  else r

/-- LogReader.resolveStatus: compute the verdict
`ReaderUtil.lineToStatus(line, this.status.statusText)`, apply the
per-verdict action of the switch statement, then unconditionally set
`statusText` to the verdict. -/
def resolveStatus (C : Classifier) (r : HBRecord) (line : String) : HBRecord :=
  let lineStatus := C.lineToStatus line r.statusText
  let racted :=
    match lineStatus with
    | STATUS.SCANNING => clearStats r
    | STATUS.SCAN_COMPLETE => clearStats r
    | STATUS.RIPPING =>
        if !(C.isEncodeStarted line) then r
        else
          { clearStats r with
              startTime := jsSlice line 1 9
              currentEncode := C.getEncodeName line }
    | STATUS.RIPPING_SUB_SCAN => { r with eta := "~" }
    | STATUS.RIPPING_ENCODING => { r with eta := "~" }
    | STATUS.QUEUE_COMPLETE => { r with endTime := jsSlice line 1 9 }
  { racted with statusText := lineStatus }

/-- The per-line step of the replay, in source order: the `line` event
handler first calls `addLineIfIsIndicator(line)` and then
`resolveStatus(line)`. -/
def foldLine (C : Classifier) (r : HBRecord) (line : String) : HBRecord :=
  resolveStatus C (addLineIfIsIndicator C r line) line

/-- The timestamps extracted from the estimator lines: the `etaDates` list
of `calcEta` (`est.slice(1, 9)` resolved via `getDateFromTime`). -/
def estimatorDates (r : HBRecord) : List Int :=
  r.etaEstimators.map (fun est => getDateFromTime (jsSlice est 1 9))

/-- The `dateDiffs` list of `calcEta`: the successive differences
`etaDates[i] - etaDates[i-1]` for `i = 1 .. length - 1`. -/
def succDiffs (l : List Int) : List Int :=
  (l.zip l.tail).map (fun p => p.2 - p.1)

/-- LogReader.calcEta, with the reference `currentDate` (the test seam for
"now") passed explicitly as milliseconds since the reference midnight.
JavaScript number arithmetic on the averaged interval is modelled with
rationals. -/
def calcEta (r : HBRecord) (currentDate : Int) : String :=
  if r.statusText = STATUS.QUEUE_COMPLETE then "00:00:00"
  else if r.statusText ≠ STATUS.RIPPING_ENCODING ∧ r.statusText ≠ STATUS.RIPPING_SUB_SCAN then ""
  else if r.etaEstimators.length < 2 then "~"
  else
    let etaDates := estimatorDates r
    let dateDiffs := succDiffs etaDates
    if dateDiffs.length = 0 then "00:00:00"
    else
      let sum : Int := dateDiffs.foldl (fun a b => a + b) 0
      let numRemainingChapters : Int := r.numChapters - r.etaEstimators.length
      let avg : Rat := (sum : Rat) / (dateDiffs.length : Rat)
      let msSinceCheckin : Rat := ((currentDate - etaDates.getD (etaDates.length - 1) 0 : Int) : Rat)
      let timeInSecs : Rat := (avg * (numRemainingChapters : Rat) - msSinceCheckin) / 1000
      secondsToFormattedTime timeInSecs

/-- The snapshot resolved at stream close: the record together with the
human-readable `status` label, after `eta` has been computed. -/
structure FinalStatus where
  record : HBRecord
  status : String
deriving DecidableEq, Repr

/-- The `close` handler of `getHBStatusItems`: set `status.status` from
the reverse lookup, compute `status.eta`, and resolve with the record. -/
def finalize (r : HBRecord) (currentDate : Int) : FinalStatus :=
  { record := { r with eta := calcEta r currentDate }
    status := REVERSE_STATUS_LOOKUP r.statusText }

/-- An event delivered to the handlers registered by `getHBStatusItems` on
the readline interface: a `line` event, an `error` event carrying the
stream error, or the `close` event at end of input.  Per the spec, the
external line source delivers the lines in file order and terminates with
either normal end-of-input or an error signal. -/
inductive RlEvent (ε : Type) where
  | line (l : String)
  | error (e : ε)
  | close
deriving DecidableEq, Repr

/-- The promise semantics of `getHBStatusItems`, replayed over the event
sequence: a `line` event folds the line into the record, the first
`error` event rejects the promise with its error, the first `close` event
resolves it with the finalized snapshot; once the promise is settled no
later event changes the outcome, and with no settling event the promise
stays pending (`none`). -/
def runEvents {ε : Type} (C : Classifier) (currentDate : Int) :
    List (RlEvent ε) → HBRecord → Option (Except ε FinalStatus)
  | [], _ => none
  | RlEvent.line l :: rest, r => runEvents C currentDate rest (foldLine C r l)
  | RlEvent.error e :: _, _ => some (Except.error e)
  | RlEvent.close :: _, r => some (Except.ok (finalize r currentDate))

/-- LogReader.getHBStatusItems over an event sequence from the line
source: the record starts as a fresh object reset by `clearStats`, then
the registered handlers process the events. -/
def getHBStatusItems {ε : Type} (C : Classifier) (currentDate : Int)
    (events : List (RlEvent ε)) : Option (Except ε FinalStatus) :=
  runEvents C currentDate events (clearStats defaultStatus)

/-- The pure result of a solo (uninterleaved) replay of a list of lines,
as delivered by a `close` after exactly those `line` events. -/
def soloResult (C : Classifier) (currentDate : Int) (lines : List String) : FinalStatus :=
  finalize (lines.foldl (foldLine C) (clearStats defaultStatus)) currentDate

/-- One primitive operation of an in-flight `getHBStatusItems` call on a
`LogReader` instance, acting on the instance field `this.status`:
`init` is the body start (this.status is set to a fresh empty object and
then reset by `this.clearStats()`),
`step` is one `line` handler invocation, `close` is the `close` handler
(which reads `this.status` and resolves the call's promise). -/
inductive CallOp where
  | init
  | step (l : String)
  | close
deriving DecidableEq, Repr

/-- The operation sequence of one complete call replaying `lines`. -/
def callOps (lines : List String) : List CallOp :=
  CallOp.init :: (lines.map CallOp.step ++ [CallOp.close])

/-- Execution of an interleaved schedule of two calls (tagged `true` and
`false`) on the same `LogReader` instance.  Both calls' handlers read and
write the single shared instance field `this.status` (the state `σ`); each
call's promise is resolved from that shared field at its `close`. -/
def runSched (C : Classifier) (currentDate : Int) :
    List (Bool × CallOp) → HBRecord → Option FinalStatus → Option FinalStatus →
    Option FinalStatus × Option FinalStatus
  | [], _, a, b => (a, b)
  | (_, CallOp.init) :: rest, σ, a, b =>
      runSched C currentDate rest (clearStats σ) a b
  | (_, CallOp.step l) :: rest, σ, a, b =>
      runSched C currentDate rest (foldLine C σ l) a b
  | (t, CallOp.close) :: rest, σ, a, b =>
      if t then runSched C currentDate rest σ (some (finalize σ currentDate)) b
      else runSched C currentDate rest σ a (some (finalize σ currentDate))

/-- A classifier under which every line matches no status pattern (the
verdict is the carried-over previous status) and no indicator pattern.
Used to instantiate the universally quantified properties. -/
def idleClassifier : Classifier :=
  { lineToStatus := fun _ prev => prev
    isEncodeStarted := fun _ => false
    getEncodeName := fun _ => ""
    matchesTitleNumber := fun _ => false
    matchesChapterProgress := fun _ => false }

/-- A classifier under which every line is classified `SCANNING` and also
matches the chapter-progress indicator pattern. -/
def scanProgressClassifier : Classifier :=
  { lineToStatus := fun _ _ => STATUS.SCANNING
    isEncodeStarted := fun _ => false
    getEncodeName := fun _ => ""
    matchesTitleNumber := fun _ => false
    matchesChapterProgress := fun _ => true }

/-- A classifier under which every line is classified `RIPPING` and none
is the encode-started marker. -/
def rippingClassifier : Classifier :=
  { lineToStatus := fun _ _ => STATUS.RIPPING
    isEncodeStarted := fun _ => false
    getEncodeName := fun _ => ""
    matchesTitleNumber := fun _ => false
    matchesChapterProgress := fun _ => false }

/-- A classifier under which every line is the encode-started marker of a
`RIPPING` verdict, with a fixed extracted title. -/
def markerClassifier : Classifier :=
  { lineToStatus := fun _ _ => STATUS.RIPPING
    isEncodeStarted := fun _ => true
    getEncodeName := fun _ => "Snatched"
    matchesTitleNumber := fun _ => false
    matchesChapterProgress := fun _ => false }

/-- A completed-run record: `QUEUE_COMPLETE` with a recorded end time. -/
def rDone : HBRecord := { defaultStatus with endTime := "00:34:57" }

/-- A mid-encode record in the `RIPPING` phase with accumulated stats. -/
def rRip : HBRecord :=
  { currentEncode := "T"
    startTime := "11:00:00"
    endTime := ""
    statusText := STATUS.RIPPING
    numChapters := 3
    etaEstimators := ["[11:01:00] chapter done"]
    eta := "" }

/-- The literal ETA scenario of the spec: mid-encode, exactly two
chapter-progress estimator lines timestamped one minute apart, five
chapters expected. -/
def rTwoSamples : HBRecord :=
  { currentEncode := "X"
    startTime := "00:09:00"
    endTime := ""
    statusText := STATUS.RIPPING_ENCODING
    numChapters := 5
    etaEstimators := ["[00:10:00] chapter done", "[00:11:00] chapter done"]
    eta := "~" }

/-- A mid-encode record in the subtitle-scan phase with a single
estimator line. -/
def rOneSample : HBRecord :=
  { currentEncode := "X"
    startTime := "00:09:00"
    endTime := ""
    statusText := STATUS.RIPPING_SUB_SCAN
    numChapters := 5
    etaEstimators := ["[00:10:00] chapter done"]
    eta := "~" }

/-- An interleaved schedule of two calls on the same instance: call A
initializes, processes the encode-started marker line, then call B
initializes (resetting the shared record) before call A closes. -/
def schedInterleaved : List (Bool × CallOp) :=
  [(true, CallOp.init),
   (true, CallOp.step "[12:00:00] marker"),
   (false, CallOp.init),
   (true, CallOp.close)]

/-- The indicator step never touches `statusText`. -/
theorem addLineIfIsIndicator_statusText (C : Classifier) (r : HBRecord) (line : String) :
    (addLineIfIsIndicator C r line).statusText = r.statusText := by
  unfold addLineIfIsIndicator
  split
  · rfl
  · split <;> rfl

/-- The successive-differences list of `n` points has `n - 1` entries. -/
theorem succDiffs_length (l : List Int) : (succDiffs l).length = l.length - 1 := by
  simp [succDiffs]

/-- C5: for every final record whose statusText is QUEUE_COMPLETE, the
computed eta is exactly "00:00:00", regardless of the contents of
etaEstimators, numChapters, or any other field. -/
theorem calcEta_queue_complete (r : HBRecord) (now : Int)
    (hq : r.statusText = STATUS.QUEUE_COMPLETE) :
    calcEta r now = "00:00:00" := by
  simp [calcEta, hq]

/-- Instantiation of `calcEta_queue_complete` at a concrete record. -/
theorem calcEta_queue_complete_apply : calcEta rDone 12345 = "00:00:00" :=
  calcEta_queue_complete rDone 12345 rfl

/-- C4: for every final record whose statusText is RIPPING_ENCODING or
RIPPING_SUB_SCAN and whose etaEstimators has fewer than 2 entries, the
computed eta is exactly the sentinel string "~". -/
theorem calcEta_insufficient_samples (r : HBRecord) (now : Int)
    (hs : r.statusText = STATUS.RIPPING_ENCODING ∨ r.statusText = STATUS.RIPPING_SUB_SCAN)
    (hlt : r.etaEstimators.length < 2) :
    calcEta r now = "~" := by
  rcases hs with h | h <;> simp [calcEta, h, hlt]

/-- Instantiation of `calcEta_insufficient_samples` at a concrete
sub-scan record with one estimator line. -/
theorem calcEta_insufficient_samples_apply : calcEta rOneSample 999 = "~" :=
  calcEta_insufficient_samples rOneSample 999 (Or.inr rfl) (by decide)

/-- C6: for every record state and every line whose classifier verdict is
SCANNING or SCAN_COMPLETE, folding that line resets currentEncode,
startTime, endTime to the empty string, numChapters to -1, etaEstimators
to the empty sequence, and eta to the empty string, and then sets
statusText to that verdict. -/
theorem foldLine_scan_reset (C : Classifier) (r : HBRecord) (line : String)
    (hv : C.lineToStatus line r.statusText = STATUS.SCANNING ∨
          C.lineToStatus line r.statusText = STATUS.SCAN_COMPLETE) :
    foldLine C r line = { defaultStatus with statusText := C.lineToStatus line r.statusText } := by
  have hst := addLineIfIsIndicator_statusText C r line
  rcases hv with h | h <;>
    simp [foldLine, resolveStatus, hst, h, clearStats]

/-- Instantiation of `foldLine_scan_reset`: a scan-verdict line appearing
after an encode has started clears the whole record (even when the line
itself also matches the chapter-progress indicator). -/
theorem foldLine_scan_reset_apply :
    foldLine scanProgressClassifier rRip "scan line" =
      { defaultStatus with statusText := STATUS.SCANNING } :=
  foldLine_scan_reset scanProgressClassifier rRip "scan line" (Or.inl rfl)

/-- C7: for every record state and every line whose classifier verdict is
RIPPING but which is not the encode-started marker line, the status fold
(resolveStatus) leaves every field other than statusText unchanged; in
particular etaEstimators accumulated so far is not cleared. -/
theorem resolveStatus_ripping_without_marker (C : Classifier) (r : HBRecord) (line : String)
    (hv : C.lineToStatus line r.statusText = STATUS.RIPPING)
    (hm : C.isEncodeStarted line = false) :
    resolveStatus C r line = { r with statusText := STATUS.RIPPING } := by
  simp [resolveStatus, hv, hm]

/-- Instantiation of `resolveStatus_ripping_without_marker` at a
mid-encode record with a nonempty estimator list. -/
theorem resolveStatus_ripping_without_marker_apply :
    resolveStatus rippingClassifier rRip "another rip line" =
      { rRip with statusText := STATUS.RIPPING } :=
  resolveStatus_ripping_without_marker rippingClassifier rRip "another rip line" rfl rfl

/-- C3: for every final record whose statusText is RIPPING_ENCODING or
RIPPING_SUB_SCAN and whose etaEstimators has n >= 2 entries, the computed
eta equals the formatted value of (avg * (numChapters - n) - elapsed) /
1000 seconds, where avg is the arithmetic mean of the n - 1 successive
differences between the timestamps extracted from consecutive estimator
lines (characters 1..9, resolved against the reference date) and elapsed
is the milliseconds from the last estimator timestamp to the reference
now; a negative result is passed to the duration formatter as-is, not
clamped. -/
theorem calcEta_mean_extrapolation (r : HBRecord) (now : Int)
    (hs : r.statusText = STATUS.RIPPING_ENCODING ∨ r.statusText = STATUS.RIPPING_SUB_SCAN)
    (hn : 2 ≤ r.etaEstimators.length) :
    calcEta r now = secondsToFormattedTime
      (((((succDiffs (estimatorDates r)).foldl (fun a b => a + b) 0 : Int) : Rat) /
          ((r.etaEstimators.length - 1 : Nat) : Rat) *
          ((r.numChapters - r.etaEstimators.length : Int) : Rat) -
          ((now - (estimatorDates r).getD ((estimatorDates r).length - 1) 0 : Int) : Rat)) / 1000) := by
  have hlen : (succDiffs (estimatorDates r)).length = r.etaEstimators.length - 1 := by
    rw [succDiffs_length]
    simp [estimatorDates]
  have hnz : ¬ ((succDiffs (estimatorDates r)).length = 0) := by
    rw [hlen]
    omega
  have hnz1 : ¬ (r.etaEstimators.length - 1 = 0) := by omega
  have hnlt : ¬ (r.etaEstimators.length < 2) := by omega
  rcases hs with h | h <;> simp [calcEta, h, hnlt, hnz, hnz1, hlen]

/-- Instantiation of `calcEta_mean_extrapolation` at the spec's literal
scenario: two estimator samples one minute apart, five chapters, and the
reference now three minutes after the last sample, giving eta 00:00:00. -/
theorem calcEta_mean_extrapolation_apply :
    calcEta rTwoSamples 840000 = secondsToFormattedTime
      (((((succDiffs (estimatorDates rTwoSamples)).foldl (fun a b => a + b) 0 : Int) : Rat) /
          ((rTwoSamples.etaEstimators.length - 1 : Nat) : Rat) *
          ((rTwoSamples.numChapters - rTwoSamples.etaEstimators.length : Int) : Rat) -
          ((840000 - (estimatorDates rTwoSamples).getD ((estimatorDates rTwoSamples).length - 1) 0 : Int) : Rat)) / 1000) ∧
    calcEta rTwoSamples 840000 = "00:00:00" := by
  refine ⟨calcEta_mean_extrapolation rTwoSamples 840000 (Or.inl rfl) (by decide), ?_⟩
  have hd : estimatorDates rTwoSamples = [600000, 660000] := by decide
  have hz : secondsToFormattedTime 0 = "00:00:00" := by decide
  have hst : rTwoSamples.statusText = STATUS.RIPPING_ENCODING := rfl
  have hlen : rTwoSamples.etaEstimators.length = 2 := rfl
  have hnum : rTwoSamples.numChapters = 5 := rfl
  rw [calcEta, hst, hd]
  simp [succDiffs, hlen, hnum, List.getD, List.foldl]
  norm_num
  rw [hz]

/-- C10: in calcEta, for every final record that reaches the interval
computation (statusText is RIPPING_ENCODING or RIPPING_SUB_SCAN and
etaEstimators.length >= 2), the list of successive timestamp differences
has length etaEstimators.length - 1 >= 1, so the zero-differences
fallback branch returning "00:00:00" is not taken: calcEta returns the
full extrapolation instead. -/
theorem calcEta_diffs_guard_unreachable (r : HBRecord) (now : Int)
    (hs : r.statusText = STATUS.RIPPING_ENCODING ∨ r.statusText = STATUS.RIPPING_SUB_SCAN)
    (hn : 2 ≤ r.etaEstimators.length) :
    (succDiffs (estimatorDates r)).length = r.etaEstimators.length - 1 ∧
    1 ≤ (succDiffs (estimatorDates r)).length ∧
    calcEta r now = secondsToFormattedTime
      (((((succDiffs (estimatorDates r)).foldl (fun a b => a + b) 0 : Int) : Rat) /
          (((succDiffs (estimatorDates r)).length : Nat) : Rat) *
          ((r.numChapters - r.etaEstimators.length : Int) : Rat) -
          ((now - (estimatorDates r).getD ((estimatorDates r).length - 1) 0 : Int) : Rat)) / 1000) := by
  have hlen : (succDiffs (estimatorDates r)).length = r.etaEstimators.length - 1 := by
    rw [succDiffs_length]
    simp [estimatorDates]
  have hnz : ¬ ((succDiffs (estimatorDates r)).length = 0) := by
    rw [hlen]
    omega
  have hnlt : ¬ (r.etaEstimators.length < 2) := by omega
  refine ⟨hlen, by omega, ?_⟩
  rcases hs with h | h <;> simp [calcEta, h, hnlt, hnz]

/-- Instantiation of `calcEta_diffs_guard_unreachable` at the two-sample
scenario record. -/
theorem calcEta_diffs_guard_unreachable_apply :
    (succDiffs (estimatorDates rTwoSamples)).length = rTwoSamples.etaEstimators.length - 1 ∧
    1 ≤ (succDiffs (estimatorDates rTwoSamples)).length ∧
    calcEta rTwoSamples 840000 = secondsToFormattedTime
      (((((succDiffs (estimatorDates rTwoSamples)).foldl (fun a b => a + b) 0 : Int) : Rat) /
          (((succDiffs (estimatorDates rTwoSamples)).length : Nat) : Rat) *
          ((rTwoSamples.numChapters - rTwoSamples.etaEstimators.length : Int) : Rat) -
          ((840000 - (estimatorDates rTwoSamples).getD ((estimatorDates rTwoSamples).length - 1) 0 : Int) : Rat)) / 1000) :=
  calcEta_diffs_guard_unreachable rTwoSamples 840000 (Or.inl rfl) (by decide)

/-- C1 (amended): a line matching no status pattern, no indicator pattern
and not the encode-started marker (so the classifier's verdict is the
carried-over previous statusText) is inert exactly when the prior
statusText is RIPPING; when it is RIPPING_SUB_SCAN or RIPPING_ENCODING
the fold additionally (re)writes eta to the sentinel; when it is SCANNING
or SCAN_COMPLETE the fold resets the whole record; when it is
QUEUE_COMPLETE the fold overwrites endTime with the line's characters
1..9.  In every case statusText is preserved. -/
theorem foldLine_no_match_action (C : Classifier) (r : HBRecord) (line : String)
    (hv : C.lineToStatus line r.statusText = r.statusText)
    (hT : C.matchesTitleNumber line = false)
    (hP : C.matchesChapterProgress line = false)
    (hM : C.isEncodeStarted line = false) :
    foldLine C r line =
      match r.statusText with
      | STATUS.SCANNING => { defaultStatus with statusText := STATUS.SCANNING }
      | STATUS.SCAN_COMPLETE => { defaultStatus with statusText := STATUS.SCAN_COMPLETE }
      | STATUS.RIPPING => r
      | STATUS.RIPPING_SUB_SCAN => { r with eta := "~" }
      | STATUS.RIPPING_ENCODING => { r with eta := "~" }
      | STATUS.QUEUE_COMPLETE => { r with endTime := jsSlice line 1 9 } := by
  obtain ⟨ce, st, et, stat, nc, ee, eta0⟩ := r
  simp only [HBRecord.statusText] at hv
  cases stat <;>
    simp [foldLine, addLineIfIsIndicator, resolveStatus, hT, hP, hM, hv, clearStats]

/-- Counterexample to C1 as stated: a line matching no status pattern and
no indicator pattern, fed to a completed-run record (prior statusText
QUEUE_COMPLETE), overwrites the endTime field with the line's characters
1..9, so the fold is not inert. -/
theorem foldLine_no_match_not_inert :
    idleClassifier.lineToStatus "hello world!" rDone.statusText = rDone.statusText ∧
    idleClassifier.matchesTitleNumber "hello world!" = false ∧
    idleClassifier.matchesChapterProgress "hello world!" = false ∧
    (foldLine idleClassifier rDone "hello world!").endTime ≠ rDone.endTime := by
  decide

/-- Instantiation of `foldLine_no_match_action` at a RIPPING-phase record,
where the unmatched line is indeed inert. -/
theorem foldLine_no_match_action_apply :
    foldLine idleClassifier rRip "log chatter" = rRip :=
  foldLine_no_match_action idleClassifier rRip "log chatter" rfl rfl rfl rfl

/-- C2 (amended): the indicator step and the status fold commute for
every line and record state such that the line matches no indicator
pattern, or the resolved verdict triggers no stats reset (the verdict is
neither SCANNING nor SCAN_COMPLETE, and if it is RIPPING the line is not
the encode-started marker).  On lines that both match an indicator
pattern and trigger a reset, the order matters: the source's order
(indicator first) lets the reset win. -/
theorem indicator_status_commute (C : Classifier) (r : HBRecord) (line : String)
    (h : (C.matchesTitleNumber line = false ∧ C.matchesChapterProgress line = false) ∨
         (C.lineToStatus line r.statusText ≠ STATUS.SCANNING ∧
          C.lineToStatus line r.statusText ≠ STATUS.SCAN_COMPLETE ∧
          (C.lineToStatus line r.statusText = STATUS.RIPPING → C.isEncodeStarted line = false))) :
    resolveStatus C (addLineIfIsIndicator C r line) line =
      addLineIfIsIndicator C (resolveStatus C r line) line := by
  rcases h with ⟨hT, hP⟩ | ⟨h1, h2, h3⟩
  · have hA : ∀ s : HBRecord, addLineIfIsIndicator C s line = s := by
      intro s
      simp [addLineIfIsIndicator, hT, hP]
    rw [hA, hA]
  · obtain ⟨ce, st, et, stat, nc, ee, eta0⟩ := r
    simp only [HBRecord.statusText] at h1 h2 h3
    cases hv : C.lineToStatus line stat
    case SCANNING => exact absurd hv h1
    case SCAN_COMPLETE => exact absurd hv h2
    case RIPPING =>
      have hm : C.isEncodeStarted line = false := h3 hv
      cases hT : C.matchesTitleNumber line <;>
        cases hP : C.matchesChapterProgress line <;>
          simp [resolveStatus, addLineIfIsIndicator, hT, hP, hv, hm]
    case RIPPING_SUB_SCAN =>
      cases hT : C.matchesTitleNumber line <;>
        cases hP : C.matchesChapterProgress line <;>
          simp [resolveStatus, addLineIfIsIndicator, hT, hP, hv]
    case RIPPING_ENCODING =>
      cases hT : C.matchesTitleNumber line <;>
        cases hP : C.matchesChapterProgress line <;>
          simp [resolveStatus, addLineIfIsIndicator, hT, hP, hv]
    case QUEUE_COMPLETE =>
      cases hT : C.matchesTitleNumber line <;>
        cases hP : C.matchesChapterProgress line <;>
          simp [resolveStatus, addLineIfIsIndicator, hT, hP, hv]

/-- Counterexample to C2 as stated: on a line that matches the
chapter-progress indicator while the verdict is SCANNING, the two
per-line steps do not commute: indicator-first (the source's order) ends
with an empty estimator list, status-first ends with the line retained. -/
theorem indicator_status_commute_fails :
    resolveStatus scanProgressClassifier
        (addLineIfIsIndicator scanProgressClassifier defaultStatus "L") "L" ≠
      addLineIfIsIndicator scanProgressClassifier
        (resolveStatus scanProgressClassifier defaultStatus "L") "L" := by
  decide

/-- Instantiation of `indicator_status_commute` on a non-indicator line
over a mid-encode record. -/
theorem indicator_status_commute_apply :
    resolveStatus idleClassifier (addLineIfIsIndicator idleClassifier rRip "chatter") "chatter" =
      addLineIfIsIndicator idleClassifier (resolveStatus idleClassifier rRip "chatter") "chatter" :=
  indicator_status_commute idleClassifier rRip "chatter" (Or.inl ⟨rfl, rfl⟩)

/-- Processing any number of line events followed by an error event
settles the promise with that error, from any record state. -/
theorem runEvents_error_after_lines {ε : Type} (C : Classifier) (now : Int)
    (ls : List String) (e : ε) (rest : List (RlEvent ε)) (r : HBRecord) :
    runEvents C now (ls.map RlEvent.line ++ RlEvent.error e :: rest) r =
      some (Except.error e) := by
  induction ls generalizing r with
  | nil => rfl
  | cons l t ih =>
      simp only [List.map_cons, List.cons_append, runEvents]
      exact ih _

/-- C8: for every status query whose line source errors (after any prefix
of delivered lines), the promise returned by getHBStatusItems is rejected
with that error, and no status record, not even a partial one, is
delivered to the caller. -/
theorem getHBStatusItems_stream_error_rejects {ε : Type} (C : Classifier) (now : Int)
    (ls : List String) (e : ε) (rest : List (RlEvent ε)) :
    getHBStatusItems C now (ls.map RlEvent.line ++ RlEvent.error e :: rest) =
      some (Except.error e) :=
  runEvents_error_after_lines C now ls e rest (clearStats defaultStatus)

/-- Running a block of step operations of either call advances the shared
record by the line fold and settles nothing. -/
theorem runSched_steps (C : Classifier) (now : Int) (t : Bool) (ls : List String)
    (rest : List (Bool × CallOp)) (σ : HBRecord) (a b : Option FinalStatus) :
    runSched C now (ls.map (fun l => (t, CallOp.step l)) ++ rest) σ a b =
      runSched C now rest (ls.foldl (foldLine C) σ) a b := by
  induction ls generalizing σ with
  | nil => rfl
  | cons l tl ih =>
      simp only [List.map_cons, List.cons_append, runSched, List.foldl_cons]
      exact ih _

/-- C9 (amended): serialized calls on the same instance are independent.
When the two calls' operation blocks do not interleave, each call's
promise resolves to exactly the snapshot of a solo replay of its own
lines, regardless of the record state the instance started in and of any
previously recorded results. -/
theorem runSched_serialized_independent (C : Classifier) (now : Int)
    (lsA lsB : List String) (σ0 : HBRecord) (a0 b0 : Option FinalStatus) :
    runSched C now
        ((callOps lsA).map (fun op => (true, op)) ++
          (callOps lsB).map (fun op => (false, op))) σ0 a0 b0 =
      (some (soloResult C now lsA), some (soloResult C now lsB)) := by
  simp only [callOps, List.map_cons, List.map_append, List.map_map, Function.comp_def,
    List.map_nil, List.append_nil, List.append_eq, List.cons_append, List.append_assoc,
    List.singleton_append, runSched, clearStats]
  rw [runSched_steps]
  simp only [runSched, if_true, clearStats]
  rw [runSched_steps]
  simp [runSched, soloResult, clearStats]

/-- Counterexample to C9 as stated: two in-flight calls on the same
LogReader instance share the single `this.status` field.  In the
interleaving where call B's initialization runs between call A's line
processing and call A's close, call A resolves to the freshly reset
record instead of the snapshot a solo replay of its line would return. -/
theorem concurrent_same_instance_interference :
    (runSched markerClassifier 0 schedInterleaved defaultStatus none none).1 ≠
      some (soloResult markerClassifier 0 ["[12:00:00] marker"]) := by
  decide

end HandbreakMonitor
